import Mathlib

/-!
# Verification of the wp-mcp-shared response cache

Shallow embedding of `src/utils/cache.js` (class `CacheManager`) and of the
cache-visible effect of the write methods of `WordPressRestClient`
(`src/unnamed/part_002`).

`CacheManager` wraps the third-party `node-cache` package (v5), constructed as
`new NodeCache( stdTTL: CACHE_TTL, checkperiod: 120, useClones: false )`.
The `NodeCache` definitions below model that dependency's behaviour:
an entry wraps a value together with an absolute expiry time `t` in
milliseconds (`t = 0` means "no expiry", which is what a ttl of `0` produces);
`get` checks expiry lazily and, on an expired entry, deletes it
(`deleteOnExpire` defaults to true) and counts a miss; stats counters
`hits`/`misses`/`keys` are kept per instance and reset by `flushAll`;
`keys()` lists every stored key, including expired entries that have not yet
been swept; reading a stored nullish value yields JS `null` (the library's
unwrap step returns `null` whenever the wrapped value is `null` or
`undefined`); `set` throws `ECACHEFULL` only when a `maxKeys` limit is
configured (the wrapper configures none, so `maxKeys` stays at its default
`-1`). Keys are strings throughout (the library's key-type check accepts
every string, so it is discharged by typing and not modelled). The periodic
background sweep (`checkperiod`) only removes entries that are already
treated as absent by every read, so it is not modelled; expiry is modelled
lazily, time being passed explicitly (in ms) to each operation that reads
`Date.now()`. The `ksize`/`vsize` byte-estimate counters are omitted.
-/

/-- A JavaScript value as seen by the cache: `undefined`, `null`, or any
other value, opaque to the cache. -/
inductive JSVal (α : Type) where
  | undef : JSVal α
  | null : JSVal α
  | val : α → JSVal α
deriving DecidableEq, Repr

/-- JS `value !== undefined`. -/
def JSVal.isUndef : JSVal α → Bool
  | .undef => true
  | _ => false

/-- A wrapped cache entry of `node-cache`: `t` is the absolute expiry time in
ms (`0` = never expires), `v` the stored value. -/
structure Entry (α : Type) where
  t : Nat
  v : JSVal α
deriving DecidableEq, Repr

/-- The `node-cache` stats record (the `ksize`/`vsize` byte estimates are
omitted; counters are integers). -/
structure Stats where
  hits : Int
  misses : Int
  keys : Int
deriving DecidableEq, Repr

/-- State of a `node-cache` instance: the string-keyed store `data`, the
stats counters, and the two options the wrapper's configuration can make
relevant (`stdTTL`, and `maxKeys`, which defaults to `-1` = unlimited). -/
structure NodeCache (α : Type) where
  data : List (String × Entry α)
  stats : Stats
  stdTTL : Nat
  maxKeys : Int
deriving DecidableEq, Repr

/-- JS `this.data[key]` (string-keyed object read). -/
def dlookup : List (String × Entry α) → String → Option (Entry α)
  | [], _ => none
  | p :: rest, key => if p.1 = key then some p.2 else dlookup rest key

/-- JS `delete this.data[key]` (string-keyed object delete; object keys are
unique, so this removes the at-most-one binding of `key`). -/
def ddel : List (String × Entry α) → String → List (String × Entry α)
  | [], _ => []
  | p :: rest, key => if p.1 = key then ddel rest key else p :: ddel rest key

/-- JS `this.data[key] = e` (string-keyed object assignment).  Object keys
are unique; the store's iteration order is immaterial to every observable of
the model, so the assignment is rendered as put-in-front. -/
def dset (data : List (String × Entry α)) (key : String) (e : Entry α) :
    List (String × Entry α) :=
  (key, e) :: ddel data key

namespace NodeCache

/-- JS `this.data[key]` on the instance's store. -/
def lookup (nc : NodeCache α) (key : String) : Option (Entry α) :=
  dlookup nc.data key

/-- Model of `node-cache` `_unwrap`: returns the wrapped value, except that a wrapped
nullish value (`null` or `undefined`) comes back as `null`.  (`useClones` is
false in the wrapper's configuration, and cloning is identity in a pure
model anyway.) -/
def unwrap (e : Entry α) : JSVal α :=
  match e.v with
  | .undef => .null
  | .null => .null
  | .val a => .val a

/-- Model of `node-cache` `get(key)`: on a present, unexpired entry count a hit and
return the unwrapped value; otherwise count a miss and return `undefined`.
An entry found expired (`t ≠ 0 ∧ t < now`) is deleted on the way
(`_check` with `deleteOnExpire`), which also decrements the `keys` counter. -/
def get (nc : NodeCache α) (key : String) (now : Nat) :
    JSVal α × NodeCache α :=
  match nc.lookup key with
  | some e =>
    if e.t ≠ 0 ∧ e.t < now then
      (JSVal.undef,
        { nc with
            data := ddel nc.data key
            stats := { nc.stats with
                        keys := nc.stats.keys - 1
                        misses := nc.stats.misses + 1 } })
    else
      (unwrap e, { nc with stats := { nc.stats with hits := nc.stats.hits + 1 } })
  | none =>
    (JSVal.undef, { nc with stats := { nc.stats with misses := nc.stats.misses + 1 } })

/-- Model of `node-cache` `_wrap(value, ttl)` for a numeric ttl (the wrapper always
passes one): expiry `0` when `ttl = 0`, else `now + ttl * 1000`. -/
def wrapT (ttl now : Nat) : Nat :=
  if ttl = 0 then 0 else now + ttl * 1000

/-- The non-throwing path of `node-cache` `set(key, value, ttl)`: overwrite
or insert the wrapped entry; the `keys` counter grows only when the key was
not already present (expired-but-unswept entries count as present). Always
returns `true`. -/
def setRaw (nc : NodeCache α) (key : String) (v : JSVal α) (ttl now : Nat) :
    Bool × NodeCache α :=
  let existent := (nc.lookup key).isSome
  (true,
    { nc with
        data := dset nc.data key ⟨wrapT ttl now, v⟩
        stats := if existent then nc.stats
                 else { nc.stats with keys := nc.stats.keys + 1 } })

/-- Model of `node-cache` `set`, including its single throw site: `ECACHEFULL` when a
`maxKeys` limit is configured and reached. -/
def set (nc : NodeCache α) (key : String) (v : JSVal α) (ttl now : Nat) :
    Except String (Bool × NodeCache α) :=
  if nc.maxKeys > -1 ∧ nc.stats.keys ≥ nc.maxKeys then .error "ECACHEFULL"
  else .ok (nc.setRaw key v ttl now)

/-- Model of `node-cache` `del(key)` for a single key: removes the entry if physically
present (expiry is not consulted), decrementing the `keys` counter, and
returns the number of entries removed. -/
def del (nc : NodeCache α) (key : String) : Nat × NodeCache α :=
  if (nc.lookup key).isSome then
    (1, { nc with
            data := ddel nc.data key
            stats := { nc.stats with keys := nc.stats.keys - 1 } })
  else (0, nc)

/-- Model of `node-cache` `del(keys)` for an array of keys: iterates `del` in order,
summing the removal counts. -/
def delMany (nc : NodeCache α) : List String → Nat × NodeCache α
  | [] => (0, nc)
  | k :: ks =>
    let r := nc.del k
    let r' := r.2.delMany ks
    (r.1 + r'.1, r'.2)

/-- Model of `node-cache` `keys()`: every stored key, expired-but-unswept ones
included. -/
def keysList (nc : NodeCache α) : List String :=
  nc.data.map (·.1)

/-- Model of `node-cache` `flushAll()`: empties the store and resets the stats. -/
def flushAll (nc : NodeCache α) : NodeCache α :=
  { nc with data := [], stats := ⟨0, 0, 0⟩ }

end NodeCache

/-- The hit/miss debug line `CacheManager.get` emits (`silent` when caching
is disabled and the method returns before logging). -/
inductive CacheLog where
  | hit : CacheLog
  | miss : CacheLog
  | silent : CacheLog
deriving DecidableEq, Repr

/-- JS `'str'.includes(pattern)`: substring containment (used by
`invalidatePattern`'s key filter). -/
def jsIncludes (s pat : String) : Bool :=
  decide (pat.data <:+: s.data)

/-- State of `CacheManager` (src/utils/cache.js): the `enabled` flag fixed at
construction and the wrapped `node-cache` instance. -/
structure CacheManager (α : Type) where
  enabled : Bool
  nc : NodeCache α
deriving DecidableEq, Repr

namespace CacheManager

/-- The constructed `CacheManager`: fresh `node-cache` store with the
configured `stdTTL` (`CACHE_TTL`) and the `enabled` flag (`CACHE_ENABLED`);
`maxKeys` is left at its default `-1`. -/
def init (enabled : Bool) (stdTTL : Nat) : CacheManager α :=
  ⟨enabled, ⟨[], ⟨0, 0, 0⟩, stdTTL, -1⟩⟩

/-- Translation of `CacheManager.get(key)`: returns `undefined` at once when disabled
(emitting no log line); otherwise reads the store and logs HIT exactly when
the returned value is not `undefined`.  Result: (returned value, log line,
state after). -/
def get (cm : CacheManager α) (key : String) (now : Nat) :
    JSVal α × CacheLog × CacheManager α :=
  if !cm.enabled then (JSVal.undef, CacheLog.silent, cm)
  else
    let r := cm.nc.get key now
    (r.1, if r.1.isUndef then CacheLog.miss else CacheLog.hit, { cm with nc := r.2 })

/-- Translation of `CacheManager.set(key, value, ttl)`: returns `false` at once when
disabled; otherwise stores through `node-cache` (whose only throw site is
`ECACHEFULL`) and returns its result. -/
def set (cm : CacheManager α) (key : String) (v : JSVal α) (ttl now : Nat) :
    Except String (Bool × CacheManager α) :=
  if !cm.enabled then .ok (false, cm)
  else (cm.nc.set key v ttl now).map (fun r => (r.1, { cm with nc := r.2 }))

/-- Translation of `CacheManager.set(key, value)` with the ttl argument defaulted to
`CACHE_TTL` (= the instance's `stdTTL`). -/
def setD (cm : CacheManager α) (key : String) (v : JSVal α) (now : Nat) :
    Except String (Bool × CacheManager α) :=
  cm.set key v cm.nc.stdTTL now

/-- Translation of `CacheManager.del(key)`: `0` at once when disabled, otherwise the
removal count from the store. -/
def del (cm : CacheManager α) (key : String) : Nat × CacheManager α :=
  if !cm.enabled then (0, cm)
  else
    let r := cm.nc.del key
    (r.1, { cm with nc := r.2 })

/-- Translation of `CacheManager.flush()`: no-op when disabled, otherwise `flushAll`. -/
def flush (cm : CacheManager α) : CacheManager α :=
  if !cm.enabled then cm
  else { cm with nc := cm.nc.flushAll }

/-- Translation of `CacheManager.invalidatePattern(pattern)`: no-op when disabled;
otherwise deletes every stored key that contains the pattern as a substring
(the delete call is only issued when at least one key matches). -/
def invalidatePattern (cm : CacheManager α) (pat : String) : CacheManager α :=
  if !cm.enabled then cm
  else
    let matching := cm.nc.keysList.filter (fun k => jsIncludes k pat)
    if matching.length > 0 then { cm with nc := (cm.nc.delMany matching).2 }
    else cm

/-- Translation of `CacheManager.getStats()`: forwards the store's stats (note: no
`enabled` guard in the source). -/
def getStats (cm : CacheManager α) : Stats :=
  cm.nc.stats

end CacheManager

/-- One public cache operation (return values discarded), used to quantify
over "every prior sequence of operations". -/
inductive Op (α : Type) where
  | get : String → Nat → Op α
  | set : String → JSVal α → Nat → Nat → Op α
  | setD : String → JSVal α → Nat → Op α
  | del : String → Op α
  | flush : Op α
  | invalidatePattern : String → Op α
  | stats : Op α

/-- Run one operation for its state effect.  `set` never throws in the
wrapper's configuration (proved below); if it did, the state would be
unchanged, since the throw happens before any mutation. -/
def CacheManager.exec (cm : CacheManager α) : Op α → CacheManager α
  | .get k now => (cm.get k now).2.2
  | .set k v ttl now =>
    match cm.set k v ttl now with
    | .ok r => r.2
    | .error _ => cm
  | .setD k v now =>
    match cm.setD k v now with
    | .ok r => r.2
    | .error _ => cm
  | .del k => (cm.del k).2
  | .flush => cm.flush
  | .invalidatePattern p => cm.invalidatePattern p
  | .stats => cm

/-- Run a sequence of operations left to right. -/
def CacheManager.execList (cm : CacheManager α) (ops : List (Op α)) :
    CacheManager α :=
  ops.foldl (fun c op => c.exec op) cm

/-- JS `endpoint.split('/')[0]`: element 0 of a split is exactly the prefix
of the string before its first `'/'` (the whole string when there is none). -/
def splitHead (endpoint : String) : String :=
  ⟨endpoint.data.takeWhile (fun c => c != '/')⟩

/-- Cache-visible effect of a `WordPressRestClient` write (`post`, `put`,
`delete` all do the same): `cache.invalidatePattern(endpoint.split('/')[0])`
(src/unnamed/part_002). -/
def restWriteInvalidate (cm : CacheManager α) (endpoint : String) :
    CacheManager α :=
  cm.invalidatePattern (splitHead endpoint)

/-- The presence test of `node-cache`'s `get`: an entry for the key is
stored and is not expired at `now` (where "expired" is `t ≠ 0 ∧ t < now`). -/
def CacheManager.livePresent (cm : CacheManager α) (key : String) (now : Nat) :
    Prop :=
  ∃ e, cm.nc.lookup key = some e ∧ ¬(e.t ≠ 0 ∧ e.t < now)

/-! ## Lemmas about the string-keyed store -/

theorem dlookup_ddel (data : List (String × Entry α)) (k k' : String) :
    dlookup (ddel data k) k' = if k' = k then none else dlookup data k' := by
  induction data with
  | nil => simp [dlookup, ddel, ite_self]
  | cons p rest ih =>
    by_cases h1 : p.1 = k
    · rw [show ddel (p :: rest) k = ddel rest k by simp [ddel, h1]]
      rw [ih]
      by_cases h2 : k' = k
      · simp [h2]
      · have h3 : ¬(p.1 = k') := fun hh => h2 (hh.symm.trans h1)
        simp [dlookup, h2, h3]
    · rw [show ddel (p :: rest) k = p :: ddel rest k by simp [ddel, h1]]
      by_cases hp : p.1 = k'
      · have h2 : ¬(k' = k) := fun hh => h1 (hp.trans hh)
        simp [dlookup, hp, h2]
      · simp [dlookup, hp, ih]

theorem dlookup_dset (data : List (String × Entry α)) (k k' : String)
    (e : Entry α) :
    dlookup (dset data k e) k' = if k' = k then some e else dlookup data k' := by
  by_cases h : k' = k
  · simp [dset, dlookup, h]
  · have h' : ¬(k = k') := fun hh => h hh.symm
    simp [dset, dlookup, h, h', dlookup_ddel]

theorem ddel_of_dlookup_none {data : List (String × Entry α)} {k : String}
    (h : dlookup data k = none) : ddel data k = data := by
  induction data with
  | nil => rfl
  | cons p rest ih =>
    by_cases h1 : p.1 = k
    · simp [dlookup, h1] at h
    · simp only [dlookup, h1, if_neg h1] at h
      simp [ddel, h1, ih h]

theorem dlookup_none_iff (data : List (String × Entry α)) (k : String) :
    dlookup data k = none ↔ k ∉ data.map Prod.fst := by
  induction data with
  | nil => simp [dlookup]
  | cons p rest ih =>
    by_cases h1 : p.1 = k
    · simp [dlookup, h1]
    · have h1' : ¬(k = p.1) := fun hh => h1 hh.symm
      simp [dlookup, h1, h1', ih]

/-! ## Lemmas about the node-cache model -/

namespace NodeCache

theorem lookup_none_of_not_mem {nc : NodeCache α} {k : String}
    (h : k ∉ nc.keysList) : nc.lookup k = none :=
  (dlookup_none_iff nc.data k).mpr h

theorem del_data (nc : NodeCache α) (k : String) :
    (nc.del k).2.data = ddel nc.data k := by
  unfold del
  by_cases h : (nc.lookup k).isSome
  · simp [h]
  · have h0 : dlookup nc.data k = none := Option.not_isSome_iff_eq_none.mp h
    rw [if_neg h]
    exact (ddel_of_dlookup_none h0).symm

theorem del_of_lookup_none {nc : NodeCache α} {k : String}
    (h : nc.lookup k = none) : nc.del k = (0, nc) := by
  unfold del
  rw [h]
  rfl

theorem del_maxKeys (nc : NodeCache α) (k : String) :
    (nc.del k).2.maxKeys = nc.maxKeys := by
  unfold del; split <;> rfl

theorem del_stdTTL (nc : NodeCache α) (k : String) :
    (nc.del k).2.stdTTL = nc.stdTTL := by
  unfold del; split <;> rfl

theorem delMany_maxKeys (ks : List String) (nc : NodeCache α) :
    (nc.delMany ks).2.maxKeys = nc.maxKeys := by
  induction ks generalizing nc with
  | nil => rfl
  | cons k ks ih => simp [delMany, ih, del_maxKeys]

theorem delMany_stdTTL (ks : List String) (nc : NodeCache α) :
    (nc.delMany ks).2.stdTTL = nc.stdTTL := by
  induction ks generalizing nc with
  | nil => rfl
  | cons k ks ih => simp [delMany, ih, del_stdTTL]

theorem dlookup_delMany (ks : List String) (nc : NodeCache α) (k' : String) :
    dlookup (nc.delMany ks).2.data k'
      = if k' ∈ ks then none else dlookup nc.data k' := by
  induction ks generalizing nc with
  | nil => simp [delMany]
  | cons k ks ih =>
    simp only [delMany]
    rw [ih, del_data, dlookup_ddel]
    by_cases h1 : k' ∈ ks <;> by_cases h2 : k' = k <;>
      simp [h1, h2, List.mem_cons]

theorem get_of_lookup_live {nc : NodeCache α} {k : String} {e : Entry α}
    {now : Nat} (h : nc.lookup k = some e) (hl : ¬(e.t ≠ 0 ∧ e.t < now)) :
    nc.get k now
      = (unwrap e,
          { nc with stats := { nc.stats with hits := nc.stats.hits + 1 } }) := by
  simp [get, h, hl]

theorem get_of_lookup_expired {nc : NodeCache α} {k : String} {e : Entry α}
    {now : Nat} (h : nc.lookup k = some e) (hl : e.t ≠ 0 ∧ e.t < now) :
    nc.get k now
      = (JSVal.undef,
          { nc with
              data := ddel nc.data k
              stats := { nc.stats with
                          keys := nc.stats.keys - 1
                          misses := nc.stats.misses + 1 } }) := by
  simp [get, h, hl]

theorem get_of_lookup_none {nc : NodeCache α} {k : String} {now : Nat}
    (h : nc.lookup k = none) :
    nc.get k now
      = (JSVal.undef,
          { nc with
              stats := { nc.stats with misses := nc.stats.misses + 1 } }) := by
  simp [get, h]

theorem get_maxKeys (nc : NodeCache α) (k : String) (now : Nat) :
    ((nc.get k now).2).maxKeys = nc.maxKeys := by
  rcases h : nc.lookup k with _ | e
  · rw [get_of_lookup_none h]
  · by_cases hl : e.t ≠ 0 ∧ e.t < now
    · rw [get_of_lookup_expired h hl]
    · rw [get_of_lookup_live h hl]

theorem get_stdTTL (nc : NodeCache α) (k : String) (now : Nat) :
    ((nc.get k now).2).stdTTL = nc.stdTTL := by
  rcases h : nc.lookup k with _ | e
  · rw [get_of_lookup_none h]
  · by_cases hl : e.t ≠ 0 ∧ e.t < now
    · rw [get_of_lookup_expired h hl]
    · rw [get_of_lookup_live h hl]

theorem get_fst (nc : NodeCache α) (k : String) (now : Nat) :
    (nc.get k now).1
      = (match nc.lookup k with
          | some e => if e.t ≠ 0 ∧ e.t < now then JSVal.undef else unwrap e
          | none => JSVal.undef) := by
  rcases h : nc.lookup k with _ | e
  · simp [get_of_lookup_none h]
  · by_cases hl : e.t ≠ 0 ∧ e.t < now
    · simp [get_of_lookup_expired h hl, hl]
    · simp [get_of_lookup_live h hl, hl]

theorem setRaw_lookup_self (nc : NodeCache α) (k : String) (v : JSVal α)
    (ttl now : Nat) :
    ((nc.setRaw k v ttl now).2).lookup k = some ⟨wrapT ttl now, v⟩ := by
  simp [setRaw, lookup, dlookup_dset]

theorem setRaw_maxKeys (nc : NodeCache α) (k : String) (v : JSVal α)
    (ttl now : Nat) : ((nc.setRaw k v ttl now).2).maxKeys = nc.maxKeys := rfl

theorem setRaw_stdTTL (nc : NodeCache α) (k : String) (v : JSVal α)
    (ttl now : Nat) : ((nc.setRaw k v ttl now).2).stdTTL = nc.stdTTL := rfl

theorem unwrap_of_ne_undef (t : Nat) {v : JSVal α} (h : v ≠ JSVal.undef) :
    unwrap ⟨t, v⟩ = v := by
  cases v with
  | undef => exact absurd rfl h
  | null => rfl
  | val a => rfl

end NodeCache

theorem wrapT_not_expired (ttl now : Nat) :
    ¬(NodeCache.wrapT ttl now ≠ 0 ∧ NodeCache.wrapT ttl now < now) := by
  unfold NodeCache.wrapT
  by_cases h : ttl = 0
  · simp [h]
  · simp only [if_neg h]
    exact fun hc => absurd hc.2 (Nat.not_lt.mpr (Nat.le_add_right _ _))

/-! ## Lemmas about the CacheManager wrapper -/

namespace CacheManager

theorem set_disabled {cm : CacheManager α} (he : cm.enabled = false)
    (k : String) (v : JSVal α) (ttl now : Nat) :
    cm.set k v ttl now = .ok (false, cm) := by
  simp [set, he]

theorem set_enabled {cm : CacheManager α} (he : cm.enabled = true)
    (hmax : cm.nc.maxKeys = -1) (k : String) (v : JSVal α) (ttl now : Nat) :
    cm.set k v ttl now
      = .ok (true, { cm with nc := (cm.nc.setRaw k v ttl now).2 }) := by
  simp [set, he, NodeCache.set, hmax, Except.map, NodeCache.setRaw]

theorem get_disabled {cm : CacheManager α} (he : cm.enabled = false)
    (k : String) (now : Nat) :
    cm.get k now = (JSVal.undef, CacheLog.silent, cm) := by
  simp [get, he]

theorem get_enabled {cm : CacheManager α} (he : cm.enabled = true)
    (k : String) (now : Nat) :
    cm.get k now
      = ((cm.nc.get k now).1,
          (if (cm.nc.get k now).1.isUndef then CacheLog.miss else CacheLog.hit),
          { cm with nc := (cm.nc.get k now).2 }) := by
  simp [get, he]

theorem del_disabled {cm : CacheManager α} (he : cm.enabled = false)
    (k : String) : cm.del k = (0, cm) := by
  simp [del, he]

theorem exec_set {cm : CacheManager α} (he : cm.enabled = true)
    (hmax : cm.nc.maxKeys = -1) (k : String) (v : JSVal α) (ttl now : Nat) :
    cm.exec (Op.set k v ttl now)
      = { cm with nc := (cm.nc.setRaw k v ttl now).2 } := by
  simp [exec, set_enabled he hmax]

theorem exec_setD {cm : CacheManager α} (he : cm.enabled = true)
    (hmax : cm.nc.maxKeys = -1) (k : String) (v : JSVal α) (now : Nat) :
    cm.exec (Op.setD k v now)
      = { cm with nc := (cm.nc.setRaw k v cm.nc.stdTTL now).2 } := by
  simp [exec, setD, set_enabled he hmax]

theorem exec_disabled {cm : CacheManager α} (he : cm.enabled = false)
    (op : Op α) : cm.exec op = cm := by
  cases op with
  | get k now => simp [exec, get_disabled he]
  | set k v ttl now => simp [exec, set_disabled he]
  | setD k v now => simp [exec, setD, set_disabled he]
  | del k => simp [exec, del_disabled he]
  | flush => simp [exec, flush, he]
  | invalidatePattern p => simp [exec, invalidatePattern, he]
  | stats => rfl

theorem execList_disabled {cm : CacheManager α} (he : cm.enabled = false)
    (ops : List (Op α)) : cm.execList ops = cm := by
  induction ops with
  | nil => rfl
  | cons op ops ih =>
    show (cm.exec op).execList ops = cm
    rw [exec_disabled he, ih]

theorem exec_enabled_eq (cm : CacheManager α) (op : Op α) :
    (cm.exec op).enabled = cm.enabled := by
  cases he : cm.enabled
  · rw [exec_disabled he]; exact he
  · cases op with
    | get k now => simp [exec, get_enabled he, he]
    | set k v ttl now =>
      simp only [exec]
      cases hs : cm.set k v ttl now with
      | error e => exact he
      | ok r =>
        rw [set] at hs
        simp only [he, Bool.not_true, Bool.false_eq_true, if_false] at hs
        cases hr : cm.nc.set k v ttl now with
        | error e => rw [hr] at hs; simp [Except.map] at hs
        | ok r2 =>
          rw [hr] at hs
          simp only [Except.map, Except.ok.injEq] at hs
          rw [← hs]
    | setD k v now =>
      simp only [exec, setD]
      cases hs : cm.set k v cm.nc.stdTTL now with
      | error e => exact he
      | ok r =>
        rw [set] at hs
        simp only [he, Bool.not_true, Bool.false_eq_true, if_false] at hs
        cases hr : cm.nc.set k v cm.nc.stdTTL now with
        | error e => rw [hr] at hs; simp [Except.map] at hs
        | ok r2 =>
          rw [hr] at hs
          simp only [Except.map, Except.ok.injEq] at hs
          rw [← hs]
    | del k => simp [exec, del, he]
    | flush => simp [exec, flush, he]
    | invalidatePattern p =>
      simp only [exec, invalidatePattern, he, Bool.not_true,
        Bool.false_eq_true, if_false]
      split <;> first | rfl | exact he
    | stats => exact he

theorem exec_maxKeys (cm : CacheManager α) (op : Op α) :
    (cm.exec op).nc.maxKeys = cm.nc.maxKeys := by
  cases he : cm.enabled
  · rw [exec_disabled he]
  · cases op with
    | get k now => simp [exec, get_enabled he, NodeCache.get_maxKeys]
    | set k v ttl now =>
      simp only [exec]
      cases hs : cm.set k v ttl now with
      | error e => rfl
      | ok r =>
        rw [set] at hs
        simp only [he, Bool.not_true, Bool.false_eq_true, if_false] at hs
        cases hr : cm.nc.set k v ttl now with
        | error e => rw [hr] at hs; simp [Except.map] at hs
        | ok r2 =>
          rw [hr] at hs
          simp only [Except.map, Except.ok.injEq] at hs
          rw [NodeCache.set] at hr
          split at hr
          · simp at hr
          · simp only [Except.ok.injEq] at hr
            rw [← hs, ← hr]
            exact NodeCache.setRaw_maxKeys cm.nc k v ttl now
    | setD k v now =>
      simp only [exec, setD]
      cases hs : cm.set k v cm.nc.stdTTL now with
      | error e => rfl
      | ok r =>
        rw [set] at hs
        simp only [he, Bool.not_true, Bool.false_eq_true, if_false] at hs
        cases hr : cm.nc.set k v cm.nc.stdTTL now with
        | error e => rw [hr] at hs; simp [Except.map] at hs
        | ok r2 =>
          rw [hr] at hs
          simp only [Except.map, Except.ok.injEq] at hs
          rw [NodeCache.set] at hr
          split at hr
          · simp at hr
          · simp only [Except.ok.injEq] at hr
            rw [← hs, ← hr]
            exact NodeCache.setRaw_maxKeys cm.nc k v cm.nc.stdTTL now
    | del k => simp [exec, del, he, NodeCache.del_maxKeys]
    | flush => simp [exec, flush, he, NodeCache.flushAll]
    | invalidatePattern p =>
      simp only [exec, invalidatePattern, he, Bool.not_true,
        Bool.false_eq_true, if_false]
      split
      · simp [NodeCache.delMany_maxKeys]
      · rfl
    | stats => rfl

theorem execList_enabled_eq (cm : CacheManager α) (ops : List (Op α)) :
    (cm.execList ops).enabled = cm.enabled := by
  induction ops generalizing cm with
  | nil => rfl
  | cons op ops ih =>
    show ((cm.exec op).execList ops).enabled = cm.enabled
    rw [ih, exec_enabled_eq]

theorem execList_maxKeys (cm : CacheManager α) (ops : List (Op α)) :
    (cm.execList ops).nc.maxKeys = cm.nc.maxKeys := by
  induction ops generalizing cm with
  | nil => rfl
  | cons op ops ih =>
    show ((cm.exec op).execList ops).nc.maxKeys = cm.nc.maxKeys
    rw [ih, exec_maxKeys]

end CacheManager

namespace CacheManager

theorem invalidatePattern_enabled_eq (cm : CacheManager α) (P : String) :
    (cm.invalidatePattern P).enabled = cm.enabled := by
  cases he : cm.enabled
  · simp [invalidatePattern, he]
  · simp only [invalidatePattern, he, Bool.not_true, Bool.false_eq_true,
      if_false]
    split <;> first | rfl | exact he

theorem invalidatePattern_lookup {cm : CacheManager α}
    (he : cm.enabled = true) (P k : String) :
    (cm.invalidatePattern P).nc.lookup k
      = if jsIncludes k P then none else cm.nc.lookup k := by
  unfold invalidatePattern
  simp only [he, Bool.not_true, Bool.false_eq_true, if_false]
  by_cases hm : (cm.nc.keysList.filter (fun x => jsIncludes x P)).length > 0
  · rw [if_pos hm]
    show dlookup (cm.nc.delMany _).2.data k = _
    rw [NodeCache.dlookup_delMany]
    by_cases hinc : jsIncludes k P
    · rw [if_pos hinc]
      by_cases hmem : k ∈ cm.nc.keysList
      · rw [if_pos (List.mem_filter.mpr ⟨hmem, hinc⟩)]
      · have hnm : ¬(k ∈ List.filter (fun x => jsIncludes x P) cm.nc.keysList) :=
          fun hc => hmem (List.mem_filter.mp hc).1
        rw [if_neg hnm]
        exact NodeCache.lookup_none_of_not_mem hmem
    · have hnm : ¬(k ∈ List.filter (fun x => jsIncludes x P) cm.nc.keysList) :=
        fun hc => hinc (List.mem_filter.mp hc).2
      rw [if_neg hinc, if_neg hnm]
      rfl
  · rw [if_neg hm]
    by_cases hinc : jsIncludes k P
    · rw [if_pos hinc]
      by_cases hmem : k ∈ cm.nc.keysList
      · exact absurd
          (List.length_pos.mpr
            (List.ne_nil_of_mem (List.mem_filter.mpr ⟨hmem, hinc⟩)))
          hm
      · exact NodeCache.lookup_none_of_not_mem hmem
    · rw [if_neg hinc]

theorem flush_enabled {cm : CacheManager α} (he : cm.enabled = true) :
    cm.flush = { cm with nc := cm.nc.flushAll } := by
  simp [flush, he]

theorem flush_enabled_props {cm : CacheManager α} (he : cm.enabled = true)
    (k : String) (now : Nat) :
    ((cm.flush).get k now).1 = JSVal.undef ∧ (cm.flush).nc.data = [] ∧
    (cm.flush).getStats.keys = 0 := by
  rw [flush_enabled he]
  refine ⟨?_, rfl, rfl⟩
  rw [CacheManager.get_enabled
    (show ({ cm with nc := cm.nc.flushAll }).enabled = true from he)]
  simp only [NodeCache.get_fst]
  rfl

theorem invalidatePattern_disabled {cm : CacheManager α}
    (he : cm.enabled = false) (P : String) :
    cm.invalidatePattern P = cm := by
  simp [invalidatePattern, he]

theorem del_enabled_eq (cm : CacheManager α) (k : String) :
    ((cm.del k).2).enabled = cm.enabled := by
  unfold del
  split
  · rfl
  · unfold NodeCache.del
    split <;> rfl

theorem del_lookup_self {cm : CacheManager α} (he : cm.enabled = true)
    (k : String) : ((cm.del k).2).nc.lookup k = none := by
  simp only [del, he, Bool.not_true, Bool.false_eq_true, if_false]
  show dlookup (cm.nc.del k).2.data k = none
  rw [NodeCache.del_data, dlookup_ddel, if_pos rfl]

theorem get_fst_congr {cm1 cm2 : CacheManager α} {k : String} {now : Nat}
    (hen : cm1.enabled = cm2.enabled)
    (hlk : cm1.nc.lookup k = cm2.nc.lookup k) :
    (cm1.get k now).1 = (cm2.get k now).1 := by
  cases he : cm1.enabled
  · rw [get_disabled he, get_disabled (hen.symm.trans he)]
  · rw [get_enabled he, get_enabled (hen.symm.trans he)]
    simp only [NodeCache.get_fst, hlk]

end CacheManager

/-! ## The claims -/

/-- C2: when the cache is constructed with `enabled = false`, then after
every prior sequence of operations, `get(K)` returns absent (and emits no
hit/miss log), `set(K, V)` returns `false` and leaves the state unchanged,
and `del(K)` returns count 0 and leaves the state unchanged. -/
theorem C2_disabled_permanently_empty (stdTTL : Nat) (ops : List (Op α))
    (k : String) (v : JSVal α) (ttl now : Nat) :
    ((CacheManager.init (α := α) false stdTTL).execList ops).get k now
        = (JSVal.undef, CacheLog.silent,
            (CacheManager.init (α := α) false stdTTL).execList ops) ∧
    ((CacheManager.init (α := α) false stdTTL).execList ops).set k v ttl now
        = .ok (false, (CacheManager.init (α := α) false stdTTL).execList ops) ∧
    ((CacheManager.init (α := α) false stdTTL).execList ops).del k
        = (0, (CacheManager.init (α := α) false stdTTL).execList ops) := by
  have he : ((CacheManager.init (α := α) false stdTTL).execList ops).enabled
      = false :=
    (CacheManager.execList_enabled_eq _ _).trans rfl
  exact ⟨CacheManager.get_disabled he k now,
    CacheManager.set_disabled he k v ttl now,
    CacheManager.del_disabled he k⟩

/-- C7: `flush()` empties the store unconditionally: from every reachable
state, after `flush()` a `get(K)` of every key returns absent, the store
holds no entries, and the reported keys count is 0. -/
theorem C7_flush_empties_store (e : Bool) (stdTTL : Nat) (ops : List (Op α))
    (k : String) (now : Nat) :
    ((((CacheManager.init (α := α) e stdTTL).execList ops).flush).get k now).1
        = JSVal.undef ∧
    (((CacheManager.init (α := α) e stdTTL).execList ops).flush).nc.data = [] ∧
    (((CacheManager.init (α := α) e stdTTL).execList ops).flush).getStats.keys
        = 0 := by
  cases e with
  | false =>
    have hcm : (CacheManager.init (α := α) false stdTTL).execList ops
        = CacheManager.init false stdTTL :=
      CacheManager.execList_disabled rfl ops
    rw [hcm]
    refine ⟨?_, rfl, rfl⟩
    rw [CacheManager.get_disabled rfl]
  | true =>
    have hen : ((CacheManager.init (α := α) true stdTTL).execList ops).enabled
        = true :=
      (CacheManager.execList_enabled_eq _ _).trans rfl
    exact CacheManager.flush_enabled_props hen k now

/-- C9: no cache operation raises a user-visible error.  In the model every
operation is a total function; the single throw site reachable with string
keys in the source — `ECACHEFULL` inside the store's `set` — is proved
unreachable: from every reachable state, in both the enabled and the
disabled state and for every key, value and ttl, `set` returns normally. -/
theorem C9_set_never_throws (e : Bool) (stdTTL : Nat) (ops : List (Op α))
    (k : String) (v : JSVal α) (ttl now : Nat) :
    ∃ r, ((CacheManager.init (α := α) e stdTTL).execList ops).set k v ttl now
        = .ok r := by
  have hmax : ((CacheManager.init (α := α) e stdTTL).execList ops).nc.maxKeys
      = -1 :=
    (CacheManager.execList_maxKeys _ _).trans rfl
  cases he : ((CacheManager.init (α := α) e stdTTL).execList ops).enabled
  · exact ⟨_, CacheManager.set_disabled he k v ttl now⟩
  · exact ⟨_, CacheManager.set_enabled he hmax k v ttl now⟩

/-- C1 (counterexample): with caching enabled, `set("k", undefined)` followed
immediately by `get("k")` returns `null`, not the stored value `undefined` —
the claim "returns V for every value V" fails at V = undefined. -/
theorem C1_counterexample :
    (((CacheManager.init (α := String) true 300).exec
        (Op.setD "k" JSVal.undef 0)).get "k" 0).1 = JSVal.null ∧
    JSVal.null ≠ (JSVal.undef : JSVal String) := by
  decide

/-- C1 (amended): with caching enabled, for every key K and every value V
other than `undefined`, `set(K, V)` followed immediately by `get(K)` returns
V (a stored `undefined` comes back as `null`). -/
theorem C1_set_then_get_returns_value (cm : CacheManager α) (k : String)
    (v : JSVal α) (now : Nat) (he : cm.enabled = true)
    (hmax : cm.nc.maxKeys = -1) (hv : v ≠ JSVal.undef) :
    ((cm.exec (Op.setD k v now)).get k now).1 = v := by
  rw [CacheManager.exec_setD he hmax]
  rw [CacheManager.get_enabled
    (show ({ cm with
        nc := (cm.nc.setRaw k v cm.nc.stdTTL now).2 }).enabled = true from he)]
  simp only [NodeCache.get_fst, NodeCache.setRaw_lookup_self]
  rw [if_neg (wrapT_not_expired _ _)]
  exact NodeCache.unwrap_of_ne_undef _ hv

/-- C1 (witness): concrete run of the amended theorem. -/
theorem C1_witness :
    ((CacheManager.init (α := String) true 300).enabled = true) ∧
    ((CacheManager.init (α := String) true 300).nc.maxKeys = -1) ∧
    (JSVal.val "x" ≠ (JSVal.undef : JSVal String)) ∧
    (((CacheManager.init (α := String) true 300).exec
        (Op.setD "a" (JSVal.val "x") 5)).get "a" 5).1 = JSVal.val "x" :=
  ⟨rfl, rfl, by decide,
    C1_set_then_get_returns_value (CacheManager.init true 300) "a"
      (JSVal.val "x") 5 rfl rfl (by decide)⟩

/-- C3: from every reachable cache state, `invalidatePattern(P)` removes
exactly the entries whose key contains P as a substring: afterwards the
lookup of every key containing P is absent, the lookup of every other key is
unchanged, and such a key's `get` result is unchanged. -/
theorem C3_invalidatePattern_exact (e : Bool) (stdTTL : Nat)
    (ops : List (Op α)) (P k : String) (now : Nat) :
    (((CacheManager.init (α := α) e stdTTL).execList ops).invalidatePattern
          P).nc.lookup k
        = (if jsIncludes k P then none
           else ((CacheManager.init (α := α) e stdTTL).execList
              ops).nc.lookup k) ∧
    (jsIncludes k P = false →
      ((((CacheManager.init (α := α) e stdTTL).execList ops).invalidatePattern
            P).get k now).1
        = (((CacheManager.init (α := α) e stdTTL).execList ops).get k now).1) := by
  cases e with
  | false =>
    have hcm : (CacheManager.init (α := α) false stdTTL).execList ops
        = CacheManager.init false stdTTL :=
      CacheManager.execList_disabled rfl ops
    rw [hcm, CacheManager.invalidatePattern_disabled rfl]
    constructor
    · rw [show (CacheManager.init (α := α) false stdTTL).nc.lookup k = none
        from rfl]
      exact (ite_self none).symm
    · intro _
      rfl
  | true =>
    have hen : ((CacheManager.init (α := α) true stdTTL).execList
        ops).enabled = true :=
      (CacheManager.execList_enabled_eq _ _).trans rfl
    refine ⟨CacheManager.invalidatePattern_lookup hen P k, fun hinc => ?_⟩
    apply CacheManager.get_fst_congr
    · exact CacheManager.invalidatePattern_enabled_eq _ _
    · rw [CacheManager.invalidatePattern_lookup hen P k,
        if_neg (by simp [hinc])]

/-- C3 (witness): concrete run — pattern "posts" removes the posts key and
leaves the pages key's lookup and value intact. -/
theorem C3_witness :
    ((((CacheManager.init (α := String) true 300).execList
        [Op.setD "GET:/posts" (JSVal.val "P") 0,
         Op.setD "GET:/pages" (JSVal.val "Q") 0]).invalidatePattern
          "posts").nc.lookup "GET:/pages"
        = (if jsIncludes "GET:/pages" "posts" then none
           else (((CacheManager.init (α := String) true 300).execList
              [Op.setD "GET:/posts" (JSVal.val "P") 0,
               Op.setD "GET:/pages" (JSVal.val "Q") 0])).nc.lookup
              "GET:/pages")) ∧
    (jsIncludes "GET:/pages" "posts" = false →
      ((((CacheManager.init (α := String) true 300).execList
          [Op.setD "GET:/posts" (JSVal.val "P") 0,
           Op.setD "GET:/pages" (JSVal.val "Q") 0]).invalidatePattern
            "posts").get "GET:/pages" 0).1
        = ((((CacheManager.init (α := String) true 300).execList
            [Op.setD "GET:/posts" (JSVal.val "P") 0,
             Op.setD "GET:/pages" (JSVal.val "Q") 0])).get "GET:/pages" 0).1) :=
  C3_invalidatePattern_exact true 300
    [Op.setD "GET:/posts" (JSVal.val "P") 0,
     Op.setD "GET:/pages" (JSVal.val "Q") 0] "posts" "GET:/pages" 0

/-- C5 (counterexample): `set("k", v, 0)` stores with TTL 0, which the store
treats as "no expiry": more than 0 seconds later (at 5000 ms) `get` still
returns the value, so the claim fails at T = 0. -/
theorem C5_counterexample :
    (((CacheManager.init (α := String) true 300).exec
        (Op.set "k" (JSVal.val "x") 0 0)).get "k" 5000).1 = JSVal.val "x" ∧
    JSVal.val "x" ≠ (JSVal.undef : JSVal String) := by
  decide

/-- C5 (amended): for every key K set with TTL T > 0 at time t0, once more
than T seconds have elapsed (now > t0 + T·1000 ms), `get(K)` returns absent;
TTL 0 instead disables expiry. -/
theorem C5_expired_entry_absent (cm : CacheManager α) (k : String)
    (v : JSVal α) (T t0 now : Nat) (hmax : cm.nc.maxKeys = -1) (hT : 0 < T)
    (hnow : t0 + T * 1000 < now) :
    ((cm.exec (Op.set k v T t0)).get k now).1 = JSVal.undef := by
  cases he : cm.enabled
  · rw [CacheManager.exec_disabled he, CacheManager.get_disabled he]
  · rw [CacheManager.exec_set he hmax]
    rw [CacheManager.get_enabled
      (show ({ cm with
          nc := (cm.nc.setRaw k v T t0).2 }).enabled = true from he)]
    simp only [NodeCache.get_fst, NodeCache.setRaw_lookup_self]
    have hw : NodeCache.wrapT T t0 = t0 + T * 1000 := by
      unfold NodeCache.wrapT
      rw [if_neg (by omega)]
    rw [hw, if_pos ⟨by omega, hnow⟩]

/-- C5 (witness): concrete run of the amended theorem with T = 1 second. -/
theorem C5_witness :
    ((CacheManager.init (α := String) true 300).nc.maxKeys = -1) ∧
    (0 < 1) ∧ (0 + 1 * 1000 < 2000) ∧
    (((CacheManager.init (α := String) true 300).exec
        (Op.set "k" (JSVal.val "x") 1 0)).get "k" 2000).1 = JSVal.undef :=
  ⟨rfl, by decide, by decide,
    C5_expired_entry_absent (CacheManager.init true 300) "k" (JSVal.val "x")
      1 0 2000 rfl (by decide) (by decide)⟩

/-- C4: the endpoints the client passes to post/put/delete begin with `/`,
so `endpoint.split('/')[0]` is the empty string and the write invalidates
with pattern `""`, which every key contains — the whole cache is flushed,
not just the written resource's family.  Evaluated at the failing input:
with `GET:/wp/v2/posts:\x7b\x7d` and `GET:/wp/v2/pages:\x7b\x7d` cached and
retrievable, a write to `/wp/v2/posts` (createPost) removes the pages entry
of the other family as well. -/
theorem C4_write_invalidates_other_families :
    splitHead "/wp/v2/posts" = "" ∧
    (((CacheManager.init (α := String) true 300).execList
        [Op.setD "GET:/wp/v2/posts:\x7b\x7d" (JSVal.val "P") 0,
         Op.setD "GET:/wp/v2/pages:\x7b\x7d" (JSVal.val "Q") 0]).get
        "GET:/wp/v2/pages:\x7b\x7d" 0).1 = JSVal.val "Q" ∧
    ((restWriteInvalidate
        ((CacheManager.init (α := String) true 300).execList
          [Op.setD "GET:/wp/v2/posts:\x7b\x7d" (JSVal.val "P") 0,
           Op.setD "GET:/wp/v2/pages:\x7b\x7d" (JSVal.val "Q") 0])
        "/wp/v2/posts").get "GET:/wp/v2/pages:\x7b\x7d" 0).1
      = JSVal.undef := by
  refine ⟨rfl, ?_, ?_⟩ <;> decide

/-- C6 (counterexample): with caching disabled, `get` increments neither the
hit nor the miss counter; and with caching enabled, a `get` that finds the
entry expired also moves the reported keys counter (from 1 to 0).  Both
violate the claim as stated. -/
theorem C6_counterexample :
    (((CacheManager.init (α := String) false 300).get "k" 0).2.2.getStats.hits
        = 0 ∧
     ((CacheManager.init (α := String) false 300).get "k"
        0).2.2.getStats.misses = 0) ∧
    (((CacheManager.init (α := String) true 300).exec
        (Op.set "k" (JSVal.val "x") 1 0)).getStats.keys = 1 ∧
     (((CacheManager.init (α := String) true 300).exec
        (Op.set "k" (JSVal.val "x") 1 0)).get "k" 2000).2.2.getStats.keys
        = 0) := by
  decide

/-- C6 (amended): when caching is enabled, each `get(key)` increments exactly
one of the hit/miss counters — the hit counter iff the key is present and
unexpired, the miss counter otherwise — leaving the other unchanged; the
only other counter movement is that a `get` finding the entry expired
deletes it lazily, decrementing the keys counter by one. -/
theorem C6_get_stats_attribution (cm : CacheManager α) (k : String)
    (now : Nat) (he : cm.enabled = true) :
    (cm.livePresent k now →
        ((cm.get k now).2.2).getStats
          = ⟨cm.getStats.hits + 1, cm.getStats.misses, cm.getStats.keys⟩) ∧
    (cm.nc.lookup k = none →
        ((cm.get k now).2.2).getStats
          = ⟨cm.getStats.hits, cm.getStats.misses + 1, cm.getStats.keys⟩) ∧
    (∀ ent, cm.nc.lookup k = some ent → ent.t ≠ 0 ∧ ent.t < now →
        ((cm.get k now).2.2).getStats
          = ⟨cm.getStats.hits, cm.getStats.misses + 1,
              cm.getStats.keys - 1⟩) := by
  refine ⟨?_, ?_, ?_⟩
  · rintro ⟨ent, hlk, hlive⟩
    rw [CacheManager.get_enabled he]
    show ((cm.nc.get k now).2).stats = _
    rw [NodeCache.get_of_lookup_live hlk hlive]
    rfl
  · intro hnone
    rw [CacheManager.get_enabled he]
    show ((cm.nc.get k now).2).stats = _
    rw [NodeCache.get_of_lookup_none hnone]
    rfl
  · intro ent hlk hexp
    rw [CacheManager.get_enabled he]
    show ((cm.nc.get k now).2).stats = _
    rw [NodeCache.get_of_lookup_expired hlk hexp]
    rfl

/-- C6 (witness): concrete run of the amended theorem — a miss on the empty
enabled cache yields stats hits 0, misses 1, keys 0. -/
theorem C6_witness :
    ((CacheManager.init (α := String) true 300).enabled = true) ∧
    (((CacheManager.init (α := String) true 300).get "k" 0).2.2).getStats
        = ⟨0, 1, 0⟩ :=
  ⟨rfl,
    (((C6_get_stats_attribution (CacheManager.init (α := String) true 300)
        "k" 0 rfl).2.1) rfl).trans (by decide)⟩

/-- C8 (counterexample): with caching disabled, `set("k", v)` followed by
`del("k")` returns 0, not 1 — the claim as stated fails on a disabled
cache. -/
theorem C8_counterexample :
    (((CacheManager.init (α := String) false 300).exec
        (Op.setD "k" (JSVal.val "x") 0)).del "k").1 = 0 ∧
    (((CacheManager.init (α := String) false 300).exec
        (Op.setD "k" (JSVal.val "x") 0)).del "k").1 ≠ 1 := by
  decide

/-- C8 (amended): `del(K)` returns the number of entries removed, 0 or 1;
when caching is enabled, after `set(K, V)` a `del(K)` returns 1 and a
subsequent `get(K)` returns absent; `del(K)` with no entry stored for K
returns 0 and leaves the state unchanged; when caching is disabled `del`
always returns 0. -/
theorem C8_del_count (cm : CacheManager α) (k : String) (v : JSVal α)
    (ttl now now' : Nat) (hmax : cm.nc.maxKeys = -1) :
    ((cm.del k).1 = 0 ∨ (cm.del k).1 = 1) ∧
    (cm.enabled = true →
        ((cm.exec (Op.set k v ttl now)).del k).1 = 1 ∧
        ((((cm.exec (Op.set k v ttl now)).del k).2).get k now').1
          = JSVal.undef) ∧
    (cm.nc.lookup k = none → cm.del k = (0, cm)) ∧
    (cm.enabled = false → (cm.del k).1 = 0) := by
  refine ⟨?_, fun he => ?_, fun hnone => ?_, fun he => ?_⟩
  · cases he : cm.enabled
    · rw [CacheManager.del_disabled he]
      exact Or.inl rfl
    · by_cases hs : (cm.nc.lookup k).isSome
      · exact Or.inr (by simp [CacheManager.del, he, NodeCache.del, hs])
      · exact Or.inl (by simp [CacheManager.del, he, NodeCache.del, hs])
  · rw [CacheManager.exec_set he hmax]
    have hlk := NodeCache.setRaw_lookup_self cm.nc k v ttl now
    have he1 : ({ cm with
        nc := (cm.nc.setRaw k v ttl now).2 } : CacheManager α).enabled
        = true := he
    constructor
    · simp [CacheManager.del, he, NodeCache.del, hlk]
    · rw [CacheManager.get_enabled
        ((CacheManager.del_enabled_eq _ k).trans he1)]
      simp only [NodeCache.get_fst, CacheManager.del_lookup_self he1 k]
  · rcases cm with ⟨en, nc⟩
    cases en
    · exact CacheManager.del_disabled rfl k
    · simp only [CacheManager.del, Bool.not_true, Bool.false_eq_true,
        if_false, NodeCache.del_of_lookup_none hnone]
  · rw [CacheManager.del_disabled he]

/-- C8 (witness): concrete run of the amended theorem's enabled set-del-get
chain. -/
theorem C8_witness :
    (((CacheManager.init (α := String) true 300).exec
        (Op.set "k" (JSVal.val "x") 300 0)).del "k").1 = 1 ∧
    ((((CacheManager.init (α := String) true 300).exec
        (Op.set "k" (JSVal.val "x") 300 0)).del "k").2.get "k" 0).1
      = JSVal.undef :=
  (C8_del_count (CacheManager.init (α := String) true 300) "k"
      (JSVal.val "x") 300 0 0 rfl).2.1 rfl

/-- C10 (counterexample): with caching enabled, after `set("k", undefined)` a
`get("k")` returns `null` (not `undefined`), is logged as a HIT (not a
miss), and the stats record a hit (hits 1, misses 0) — so a stored
`undefined` is not indistinguishable from absence and every predicted
outcome of the claim fails. -/
theorem C10_counterexample :
    ((((CacheManager.init (α := String) true 300).exec
        (Op.setD "k" JSVal.undef 0)).get "k" 0).1 = JSVal.null ∧
     (((CacheManager.init (α := String) true 300).exec
        (Op.setD "k" JSVal.undef 0)).get "k" 0).1 ≠ JSVal.undef) ∧
    (((CacheManager.init (α := String) true 300).exec
        (Op.setD "k" JSVal.undef 0)).get "k" 0).2.1 = CacheLog.hit ∧
    ((((CacheManager.init (α := String) true 300).exec
        (Op.setD "k" JSVal.undef 0)).get "k" 0).2.2.getStats.hits = 1 ∧
     (((CacheManager.init (α := String) true 300).exec
        (Op.setD "k" JSVal.undef 0)).get "k" 0).2.2.getStats.misses = 0) := by
  decide

/-- C10 (amended): when caching is enabled, `set(K, undefined)` followed by
`get(K)` returns `null` (the store unwraps a stored nullish value to
`null`), the access is logged as a HIT, and the stats record one more hit
and no further miss — a stored `undefined` is observably different from an
absent key, which yields `undefined`, a MISS log and a recorded miss. -/
theorem C10_set_undefined_is_hit (cm : CacheManager α) (k : String)
    (t0 : Nat) (he : cm.enabled = true) (hmax : cm.nc.maxKeys = -1) :
    ((cm.exec (Op.setD k JSVal.undef t0)).get k t0).1 = JSVal.null ∧
    ((cm.exec (Op.setD k JSVal.undef t0)).get k t0).2.1 = CacheLog.hit ∧
    ((cm.exec (Op.setD k JSVal.undef t0)).get k t0).2.2.getStats.hits
        = (cm.exec (Op.setD k JSVal.undef t0)).getStats.hits + 1 ∧
    ((cm.exec (Op.setD k JSVal.undef t0)).get k t0).2.2.getStats.misses
        = (cm.exec (Op.setD k JSVal.undef t0)).getStats.misses := by
  rw [CacheManager.exec_setD he hmax]
  have hlk := NodeCache.setRaw_lookup_self cm.nc k JSVal.undef cm.nc.stdTTL t0
  have hget := NodeCache.get_of_lookup_live hlk (wrapT_not_expired _ _)
  rw [CacheManager.get_enabled
    (show ({ cm with
        nc := (cm.nc.setRaw k JSVal.undef cm.nc.stdTTL t0).2 }).enabled
      = true from he)]
  simp [hget, NodeCache.unwrap, JSVal.isUndef, CacheManager.getStats]

/-- C10 (witness): concrete run of the amended theorem. -/
theorem C10_witness :
    ((CacheManager.init (α := String) true 300).enabled = true) ∧
    (((CacheManager.init (α := String) true 300).exec
        (Op.setD "k" JSVal.undef 7)).get "k" 7).1 = JSVal.null ∧
    (((CacheManager.init (α := String) true 300).exec
        (Op.setD "k" JSVal.undef 7)).get "k" 7).2.1 = CacheLog.hit ∧
    (((CacheManager.init (α := String) true 300).exec
        (Op.setD "k" JSVal.undef 7)).get "k" 7).2.2.getStats.hits
        = ((CacheManager.init (α := String) true 300).exec
            (Op.setD "k" JSVal.undef 7)).getStats.hits + 1 ∧
    (((CacheManager.init (α := String) true 300).exec
        (Op.setD "k" JSVal.undef 7)).get "k" 7).2.2.getStats.misses
        = ((CacheManager.init (α := String) true 300).exec
            (Op.setD "k" JSVal.undef 7)).getStats.misses :=
  ⟨rfl, C10_set_undefined_is_hit (CacheManager.init (α := String) true 300)
    "k" 7 rfl rfl⟩
